import Mathlib

/-!
Verification of the meal-access admission engine of the `sahara` mess-management
repository: the QR credential codec (`apps/utils/qr_utils.py`) and the scan
adjudication view (`apps/api/views.py::scanner_scan`), over a shallow embedding.

Python strings are embedded as `List Char`; Django rows as Lean structures;
the database as lists of rows; `timezone.now()` reads as an explicit clock
stream passed to the adjudication function. The file is organized as the
definitions (the embedding) followed by the theorems about them.
-/

namespace Sahara

/-- Python `str.split(sep)` for a one-character separator, on `List Char`.
`splitOnChar sep s` never returns `[]`. -/
def splitOnChar (sep : Char) : List Char → List (List Char)
  | [] => [[]]
  | c :: cs =>
    match splitOnChar sep cs with
    | [] => [[]]
    | r :: rs => if c = sep then [] :: r :: rs else (c :: r) :: rs

/-- Value of a decimal digit string (Python `int` on an all-digit string). -/
def decValue (s : List Char) : Nat :=
  s.foldl (fun a c => 10 * a + (c.toNat - 48)) 0

/-- Model of CPython `int(str)` on the strings this codec handles: an optional
leading minus sign followed by one or more decimal digits parses to that
integer; anything else raises `ValueError` (modelled as `none`). -/
def pythonInt (s : List Char) : Option Int :=
  match s with
  | '-' :: rest =>
    if rest ≠ [] ∧ rest.all Char.isDigit then some (-(decValue rest : Int)) else none
  | _ =>
    if s ≠ [] ∧ s.all Char.isDigit then some ((decValue s : Int)) else none

/-- Decimal rendering worker, fuelled so that it reduces structurally; any
`fuel > n` is enough, since the argument shrinks by a factor of ten. -/
def natToCharsAux : Nat → Nat → List Char
  | 0, _ => []
  | fuel + 1, n =>
    if n < 10 then [Char.ofNat (48 + n)]
    else natToCharsAux fuel (n / 10) ++ [Char.ofNat (48 + n % 10)]

/-- Python `str(n)` for a natural number: decimal digits, no sign. -/
def natToChars (n : Nat) : List Char := natToCharsAux (n + 1) n

/-- Python `str(i)` for an integer: a minus sign for negatives, then digits. -/
def intToChars (i : Int) : List Char :=
  if i < 0 then '-' :: natToChars i.natAbs else natToChars i.toNat

/-- A timezone-aware instant (`timezone.now()`), reduced to what the scan view
observes: the local calendar day (an abstract day number; `.date()` projects to
it) and the time of day within that day. -/
structure DateTime where
  day : Int
  tod : Nat
deriving DecidableEq, Repr

/-- Chronological `≤` on instants (lexicographic on day, then time of day). -/
def dtLE (a b : DateTime) : Prop :=
  a.day < b.day ∨ (a.day = b.day ∧ a.tod ≤ b.tod)

/-- Chronological `<` on instants. -/
def dtLT (a b : DateTime) : Prop :=
  a.day < b.day ∨ (a.day = b.day ∧ a.tod < b.tod)

instance (a b : DateTime) : Decidable (dtLE a b) := by unfold dtLE; infer_instance

instance (a b : DateTime) : Decidable (dtLT a b) := by unfold dtLT; infer_instance

/-- `now.replace(hour=0, minute=0, second=0, microsecond=0)` (views.py 111). -/
def startOfDay (t : DateTime) : DateTime := ⟨t.day, 0⟩

/-- `t + timedelta(days=n)` (views.py 112). -/
def addDays (t : DateTime) (n : Int) : DateTime := ⟨t.day + n, t.tod⟩

/-- The `Settings` singleton row (`apps/core/models.py` 183–202), restricted to
the field the codec reads (`qr_secret_version`). -/
structure Settings where
  qr_secret_version : Int
deriving DecidableEq, Repr

/-- A `Student` row (`apps/core/models.py` 8–33), restricted to the fields the
admission pipeline reads. -/
structure Student where
  id : Int
  tg_user_id : Int
  status : String
  qr_nonce : List Char
deriving DecidableEq, Repr

/-- A `Payment` row (`apps/core/models.py` 36–66): date cycle and status. -/
structure Payment where
  student : Int
  cycle_start : Int
  cycle_end : Int
  status : String
deriving DecidableEq, Repr

/-- A `MessCut` row (`apps/core/models.py` 69–86): per-student exclusion. -/
structure MessCut where
  student : Int
  from_date : Int
  to_date : Int
deriving DecidableEq, Repr

/-- A `MessClosure` row (`apps/core/models.py` 89–100): global exclusion. -/
structure MessClosure where
  from_date : Int
  to_date : Int
deriving DecidableEq, Repr

/-- A `ScanEvent` row (`apps/core/models.py` 103–128). `scanned_at` carries
`auto_now_add`: it is the instant of the row's creation. -/
structure ScanEvent where
  student : Int
  meal : String
  scanned_at : DateTime
  result : String
  device_info : String
  staff_token : Option String
deriving DecidableEq, Repr

/-- The database state the adjudication reads and writes. -/
structure DB where
  students : List Student
  payments : List Payment
  mess_cuts : List MessCut
  mess_closures : List MessClosure
  scan_events : List ScanEvent
deriving DecidableEq, Repr

/-- `generate_qr_payload` (`apps/utils/qr_utils.py` 10–25): builds
`"{version}|{student_id}|{issued_at}|{nonce}"` and appends the HMAC-SHA256 hex
digest of that message under `settings.QR_SECRET`. The HMAC primitive is the
external `hmac`/`hashlib` library; it enters as the parameter
`mac : secret → message → digest`. `issued_at = int(time.time())` enters as a
parameter, as does the `Settings` row read by `Settings.get_settings()`. -/
def generate_qr_payload (mac : List Char → List Char → List Char)
    (qrSecret : List Char) (appSettings : Settings)
    (student_id : Int) (nonce : List Char) (issued_at : Int) : List Char :=
  let payload_data :=
    intToChars appSettings.qr_secret_version ++ '|' ::
      (intToChars student_id ++ '|' :: (intToChars issued_at ++ '|' :: nonce))
  let signature := mac qrSecret payload_data
  payload_data ++ '|' :: signature

/-- `verify_qr_payload` (`apps/utils/qr_utils.py` 27–59). Splits on `'|'` into
exactly five parts, checks the version against `Settings.qr_secret_version`,
recomputes the HMAC over the first four parts and compares (constant-time
`hmac.compare_digest`, modelled as equality), computes — but never acts on —
the token age against `MESS_CONFIG['qr_expiry_buffer_hours']`, and returns the
embedded student id. `int()` failures raise `ValueError`, caught by the
enclosing `try` and returned as a verification-error message (the model uses
one fixed message for all caught exceptions). `now = int(time.time())`. -/
def verify_qr_payload (mac : List Char → List Char → List Char)
    (qrSecret : List Char) (appSettings : Settings) (qr_expiry_buffer_hours : Int)
    (payload : List Char) (now : Int) : Option Int × String :=
  let parts := splitOnChar '|' payload
  if parts.length ≠ 5 then (none, "Invalid payload format")
  else
    match parts with
    | [version, student_id, issued_at, nonce, signature] =>
      match pythonInt version with
      | none => (none, "Verification error")
      | some v =>
        if v ≠ appSettings.qr_secret_version then (none, "QR code version mismatch")
        else
          let payload_data := version ++ '|' :: (student_id ++ '|' :: (issued_at ++ '|' :: nonce))
          let expected_signature := mac qrSecret payload_data
          if signature ≠ expected_signature then (none, "Invalid signature")
          else
            match pythonInt issued_at with
            | none => (none, "Verification error")
            | some ia =>
              -- qr_utils.py 50–54: the age check is computed but its branch
              -- body is `pass` (`/ 3600` in the source; the value is unused)
              let _qr_age_check := if (3600 : Int) * qr_expiry_buffer_hours < now - ia then () else ()
              match pythonInt student_id with
              | none => (none, "Verification error")
              | some sid => (some sid, "Valid")
    | _ => (none, "Invalid payload format")

/-- The scan request body (`request.data` in `scanner_scan`) plus the calling
staff user's token reference (`request.user.staff_token`). `qr_data` is `none`
when the key is absent. -/
structure Request where
  qr_data : Option (List Char)
  meal : String
  device_info : String
  staff_token : Option String
deriving DecidableEq, Repr

/-- The response of `scanner_scan`, reduced to what the claims concern: the
HTTP 400 early exit, or a `result` string (`ALLOWED` / `BLOCKED_*`). Reason
texts and serialized snapshots are carried alongside in the source and elided
here. -/
inductive ScanResponse where
  | badRequest
  | res (result : String)
deriving DecidableEq, Repr

/-- Python `str.upper()` (views.py 21), on the ASCII strings meals are. -/
def pyUpper (s : String) : String := ⟨s.data.map Char.toUpper⟩

/-- The meal whitelist of views.py 24. -/
def mealChoices : List String := ["BREAKFAST", "LUNCH", "DINNER"]

/-- The `Payment.objects.filter(...)` predicate of views.py 63–68. -/
def isValidPayment (studentId today : Int) (p : Payment) : Bool :=
  p.student == studentId && p.status == "VERIFIED" &&
    decide (p.cycle_start ≤ today) && decide (today ≤ p.cycle_end)

/-- The `MessCut.objects.filter(...)` predicate of views.py 84–88. -/
def isActiveCut (studentId today : Int) (c : MessCut) : Bool :=
  c.student == studentId && decide (c.from_date ≤ today) && decide (today ≤ c.to_date)

/-- The `MessClosure.objects.filter(...)` predicate of views.py 91–94. -/
def isActiveClosure (today : Int) (c : MessClosure) : Bool :=
  decide (c.from_date ≤ today) && decide (today ≤ c.to_date)

/-- The duplicate-scan query of views.py 110–120: first `ScanEvent` of this
student and meal with `result='ALLOWED'` whose `scanned_at` lies in
`[today_start, today_start + 1 day)`, where `today_start` zeroes the time of a
fresh `timezone.now()` read `t1`. -/
def findAllowedScan (events : List ScanEvent) (studentId : Int) (meal : String)
    (t1 : DateTime) : Option ScanEvent :=
  let today_start := startOfDay t1
  let today_end := addDays today_start 1
  events.find? (fun e =>
    e.student == studentId && e.meal == meal &&
      decide (dtLE today_start e.scanned_at) && decide (dtLT e.scanned_at today_end) &&
      e.result == "ALLOWED")

/-- What the ALLOWED path still has to commit after every check has passed
(views.py 129–136). -/
structure PendingAllow where
  student : Student
  meal : String
  device_info : String
  staff_token : Option String
deriving DecidableEq, Repr

/-- `scanner_scan` (`apps/api/views.py` 16–127) up to and including the
duplicate-scan check: everything before the final ALLOWED write. Returns the
early response together with the (possibly updated) database, or the pending
ALLOWED commit. `t0` is the first `timezone.now()`-backed read the executed
path makes (line 62's `today`, or the `auto_now_add` stamp of the
`BLOCKED_STATUS` write, which on that path happens first); `t1` the second
(line 111, or the `auto_now_add` stamp of the `BLOCKED_NO_PAYMENT` /
`BLOCKED_CUT` writes). `unixNow` is `time.time()` inside
`verify_qr_payload`. -/
def scan_precheck (mac : List Char → List Char → List Char) (qrSecret : List Char)
    (appSettings : Settings) (buffer : Int) (db : DB) (req : Request)
    (unixNow : Int) (t0 t1 : DateTime) : (ScanResponse × DB) ⊕ PendingAllow :=
  let meal := pyUpper req.meal
  -- views.py 24: `if not qr_data or meal not in [...]` (None and '' are falsy)
  match req.qr_data with
  | none => .inl (.badRequest, db)
  | some qr_data =>
    if qr_data = [] ∨ meal ∉ mealChoices then .inl (.badRequest, db)
    else
      -- views.py 31–36: `if not student_id` — both None and 0 are falsy
      match (verify_qr_payload mac qrSecret appSettings buffer qr_data unixNow).1 with
      | none => .inl (.res "BLOCKED_QR_INVALID", db)
      | some student_id =>
        if student_id = 0 then .inl (.res "BLOCKED_QR_INVALID", db)
        else
          match db.students.find? (fun s => s.id == student_id) with
          | none => .inl (.res "BLOCKED_STUDENT_NOT_FOUND", db)
          | some student =>
            if student.status ≠ "APPROVED" then
              .inl (.res "BLOCKED_STATUS",
                { db with scan_events := db.scan_events ++
                    [⟨student.id, meal, t0, "BLOCKED_STATUS", req.device_info, none⟩] })
            else
              -- views.py 62: `today = timezone.now().date()`
              let today := t0.day
              match db.payments.find? (isValidPayment student.id today) with
              | none =>
                .inl (.res "BLOCKED_NO_PAYMENT",
                  { db with scan_events := db.scan_events ++
                      [⟨student.id, meal, t1, "BLOCKED_NO_PAYMENT", req.device_info, none⟩] })
              | some _valid_payment =>
                let is_cut := db.mess_cuts.any (isActiveCut student.id today)
                let is_closed := db.mess_closures.any (isActiveClosure today)
                if is_cut || is_closed then
                  .inl (.res "BLOCKED_CUT",
                    { db with scan_events := db.scan_events ++
                        [⟨student.id, meal, t1, "BLOCKED_CUT", req.device_info, none⟩] })
                else
                  -- views.py 111: a second `timezone.now()` read, `t1`
                  match findAllowedScan db.scan_events student.id meal t1 with
                  | some _existing => .inl (.res "BLOCKED_DUPLICATE", db)
                  | none => .inr ⟨student, meal, req.device_info, req.staff_token⟩

/-- The final write of `scanner_scan` (views.py 129–136): append the ALLOWED
`ScanEvent` (its `auto_now_add` stamp is a fresh clock read `t2`) and answer
`ALLOWED`. The notification dispatch of line 140 is a fire-and-forget
`.delay(...)` to an external queue: it touches neither the decision nor the
database and is not modelled further. -/
def scan_commit (db : DB) (p : PendingAllow) (t2 : DateTime) : ScanResponse × DB :=
  (.res "ALLOWED",
    { db with scan_events := db.scan_events ++
        [⟨p.student.id, p.meal, t2, "ALLOWED", p.device_info, p.staff_token⟩] })

/-- `scanner_scan` (`apps/api/views.py` 16–146), one sequential call. `clock`
is the stream of instants its successive `timezone.now()`-backed reads observe
(index 0 first, and so on in program order along the executed path). -/
def scanner_scan (mac : List Char → List Char → List Char) (qrSecret : List Char)
    (appSettings : Settings) (buffer : Int) (db : DB) (req : Request)
    (unixNow : Int) (clock : Nat → DateTime) : ScanResponse × DB :=
  match scan_precheck mac qrSecret appSettings buffer db req unixNow (clock 0) (clock 1) with
  | .inl out => out
  | .inr p => scan_commit db p (clock 2)

/-- Two `ScanEvent`s collide on the ledger invariant when both carry
`result = ALLOWED` for the same (student, meal, calendar day). -/
def sameAllowedKey (a b : ScanEvent) : Prop :=
  a.result = "ALLOWED" ∧ b.result = "ALLOWED" ∧
    a.student = b.student ∧ a.meal = b.meal ∧ a.scanned_at.day = b.scanned_at.day

instance (a b : ScanEvent) : Decidable (sameAllowedKey a b) := by
  unfold sameAllowedKey; infer_instance

/-- The Scan Ledger invariant: for a given (student, meal, calendar day), at
most one `ScanEvent` carries `result = ALLOWED`. -/
def AllowedUnique (events : List ScanEvent) : Prop :=
  events.Pairwise (fun a b => ¬ sameAllowedKey a b)

instance (events : List ScanEvent) : Decidable (AllowedUnique events) := by
  unfold AllowedUnique; infer_instance

/-- Some `ScanEvent` in the ledger is an ALLOWED record for (student `sid`,
meal `meal`, calendar day `d`). -/
def hasAllowedScanOn (events : List ScanEvent) (sid : Int) (meal : String) (d : Int) : Prop :=
  ∃ e ∈ events, e.student = sid ∧ e.meal = meal ∧ e.scanned_at.day = d ∧ e.result = "ALLOWED"

instance (events : List ScanEvent) (sid : Int) (meal : String) (d : Int) :
    Decidable (hasAllowedScanOn events sid meal d) := by
  unfold hasAllowedScanOn; infer_instance

/-- Some VERIFIED `Payment` of student `sid` covers day `d`. -/
def paidOn (ps : List Payment) (sid d : Int) : Prop :=
  ∃ p ∈ ps, p.student = sid ∧ p.status = "VERIFIED" ∧ p.cycle_start ≤ d ∧ d ≤ p.cycle_end

instance (ps : List Payment) (sid d : Int) : Decidable (paidOn ps sid d) := by
  unfold paidOn; infer_instance

/-- Day `d` is excluded for student `sid`: a `MessCut` of theirs or a global
`MessClosure` covers it. -/
def excludedOn (db : DB) (sid d : Int) : Prop :=
  (∃ c ∈ db.mess_cuts, c.student = sid ∧ c.from_date ≤ d ∧ d ≤ c.to_date) ∨
    (∃ c ∈ db.mess_closures, c.from_date ≤ d ∧ d ≤ c.to_date)

instance (db : DB) (sid d : Int) : Decidable (excludedOn db sid d) := by
  unfold excludedOn; infer_instance

/-- Two adjudications racing on the shared database, in the interleaving
check₁ · check₂ · write₁ · write₂: both read phases (`scan_precheck`, the
duplicate check included) run against the same initial state before either
write commits. The view takes no lock and the `scan_events` table carries no
uniqueness constraint, so nothing in the code excludes this schedule. Returns
`none` when either call terminates inside its read phase (such a call performs
its own early write or none at all and the schedule degenerates); in the
double-eligible case of interest both reach their commit. The sequential
schedule check₁ · write₁ · check₂ · write₂ is two `scanner_scan` calls. -/
def raceRun (mac : List Char → List Char → List Char) (qrSecret : List Char)
    (appSettings : Settings) (buffer : Int) (db : DB) (req₁ req₂ : Request)
    (unixNow : Int) (clockA clockB : Nat → DateTime) :
    Option (ScanResponse × ScanResponse × DB) :=
  match scan_precheck mac qrSecret appSettings buffer db req₁ unixNow (clockA 0) (clockA 1),
      scan_precheck mac qrSecret appSettings buffer db req₂ unixNow (clockB 0) (clockB 1) with
  | .inr p₁, .inr p₂ =>
    let out₁ := scan_commit db p₁ (clockA 2)
    let out₂ := scan_commit out₁.2 p₂ (clockB 2)
    some (out₁.1, out₂.1, out₂.2)
  | _, _ => none

/-! Concrete inputs used to instantiate the theorems below. `cMac` is a
deterministic stand-in for the HMAC primitive; like a real hex digest, its
output never contains the `'|'` separator. -/

def cMac : List Char → List Char → List Char := fun _ _ => ['s', 'g']

def cSecret : List Char := ['k']

def cSettings : Settings := ⟨1⟩

def cSettings2 : Settings := ⟨2⟩

def cNonce : List Char := ['a', 'b']

def cToken : List Char := generate_qr_payload cMac cSecret cSettings 42 cNonce 100

def cStudent : Student := ⟨42, 777, "APPROVED", cNonce⟩

def cPayment : Payment := ⟨42, 0, 30, "VERIFIED"⟩

def cDB : DB := ⟨[cStudent], [cPayment], [], [], []⟩

def cReq : Request := ⟨some cToken, "LUNCH", "dev", some "counter-1"⟩

def cClock : Nat → DateTime := fun _ => ⟨15, 100⟩

/-- The ALLOWED record an eligible scan of `cReq` against `cDB` under `cClock`
appends. -/
def cAllowedEvent : ScanEvent := ⟨42, "LUNCH", ⟨15, 100⟩, "ALLOWED", "dev", some "counter-1"⟩

def cDBAfter : DB := ⟨[cStudent], [cPayment], [], [], [cAllowedEvent]⟩

/-- The ledger after the racing double admission: two identical ALLOWED
records for (student 42, LUNCH, day 15). -/
def cDBDouble : DB := ⟨[cStudent], [cPayment], [], [], [cAllowedEvent, cAllowedEvent]⟩

/-- A token minted while the student's nonce was `n1`, presented after the
student's live `qr_nonce` has been re-issued to `n2`. -/
def cTokenStale : List Char := generate_qr_payload cMac cSecret cSettings 42 ['n', '1'] 100

def cStudentReissued : Student := ⟨42, 777, "APPROVED", ['n', '2']⟩

def cDBReissued : DB := ⟨[cStudentReissued], [cPayment], [], [], []⟩

def cReqStale : Request := ⟨some cTokenStale, "LUNCH", "dev", none⟩

/-- A nonce containing the `'|'` separator. -/
def cNonceBad : List Char := ['a', '|', 'b']

def cTokenBad : List Char := generate_qr_payload cMac cSecret cSettings 42 cNonceBad 100

/-- A token embedding student id 0. -/
def cTokenZero : List Char := generate_qr_payload cMac cSecret cSettings 0 cNonce 100

def cReqZero : Request := ⟨some cTokenZero, "LUNCH", "dev", none⟩

/-- A ledger already holding an ALLOWED LUNCH record of day 10 for student
42. -/
def cDBPrior : DB := ⟨[cStudent], [cPayment], [], [],
  [⟨42, "LUNCH", ⟨10, 50⟩, "ALLOWED", "", none⟩]⟩

/-- A clock whose first read (`today`, views.py 62) falls just before midnight
of day 10 and whose second read (the duplicate-check read, views.py 111) falls
just after, on day 11. -/
def cClockMidnight : Nat → DateTime := fun n => if n = 0 then ⟨10, 86340⟩ else ⟨11, 0⟩

/-- A ledger already holding an ALLOWED LUNCH record on day 15, the day of
every `cClock` read. -/
def cDBToday : DB := ⟨[cStudent], [cPayment], [], [],
  [⟨42, "LUNCH", ⟨15, 30⟩, "ALLOWED", "", none⟩]⟩

/-! ## Theorems -/

theorem splitOnChar_ne_nil (sep : Char) (s : List Char) : splitOnChar sep s ≠ [] := by
  cases s with
  | nil => simp [splitOnChar]
  | cons c cs =>
    simp only [splitOnChar]
    cases splitOnChar sep cs with
    | nil => simp
    | cons r rs =>
      by_cases h : c = sep <;> simp [h]

theorem splitOnChar_of_not_mem (sep : Char) (s : List Char) (h : sep ∉ s) :
    splitOnChar sep s = [s] := by
  induction s with
  | nil => rfl
  | cons c cs ih =>
    have hc : c ≠ sep := fun e => h (e ▸ List.mem_cons_self c cs)
    have hcs : sep ∉ cs := fun m => h (List.mem_cons_of_mem c m)
    simp only [splitOnChar, ih hcs]
    simp [hc]

theorem splitOnChar_append_sep (sep : Char) (xs ys : List Char) (h : sep ∉ xs) :
    splitOnChar sep (xs ++ sep :: ys) = xs :: splitOnChar sep ys := by
  induction xs with
  | nil =>
    simp only [List.nil_append, splitOnChar]
    cases hs : splitOnChar sep ys with
    | nil => exact absurd hs (splitOnChar_ne_nil sep ys)
    | cons r rs => simp
  | cons c cs ih =>
    have hc : c ≠ sep := fun e => h (e ▸ List.mem_cons_self c cs)
    have hcs : sep ∉ cs := fun m => h (List.mem_cons_of_mem c m)
    simp only [List.cons_append, splitOnChar, List.append_eq]
    rw [ih hcs]
    simp [hc]

theorem decValue_append_digit (xs : List Char) (c : Char) :
    decValue (xs ++ [c]) = 10 * decValue xs + (c.toNat - 48) := by
  simp [decValue, List.foldl_append]

theorem natToCharsAux_fuel_irrel (n : Nat) :
    ∀ fuel, n < fuel → natToCharsAux fuel n = natToCharsAux (n + 1) n := by
  induction n using Nat.strong_induction_on with
  | _ n ih =>
    intro fuel hf
    cases fuel with
    | zero => omega
    | succ f =>
      show natToCharsAux (f + 1) n = natToCharsAux (n + 1) n
      simp only [natToCharsAux]
      split
      · rfl
      · next h =>
        have h10 : n / 10 < n := Nat.div_lt_self (by omega) (by omega)
        rw [ih (n / 10) h10 f (by omega), ih (n / 10) h10 n (by omega)]

theorem natToChars_eq (n : Nat) :
    natToChars n =
      if n < 10 then [Char.ofNat (48 + n)]
      else natToChars (n / 10) ++ [Char.ofNat (48 + n % 10)] := by
  show natToCharsAux (n + 1) n = _
  simp only [natToCharsAux]
  split
  · rfl
  · next h =>
    rw [natToCharsAux_fuel_irrel (n / 10) n (Nat.div_lt_self (by omega) (by omega))]
    rfl

theorem digitChar_isDigit (d : Nat) (h : d < 10) : (Char.ofNat (48 + d)).isDigit = true := by
  interval_cases d <;> decide

theorem digitChar_toNat (d : Nat) (h : d < 10) : (Char.ofNat (48 + d)).toNat = 48 + d := by
  interval_cases d <;> decide

theorem natToChars_ne_nil (n : Nat) : natToChars n ≠ [] := by
  rw [natToChars_eq]
  split <;> simp

theorem natToChars_all_digits (n : Nat) : (natToChars n).all Char.isDigit = true := by
  induction n using Nat.strong_induction_on with
  | _ n ih =>
    rw [natToChars_eq]
    split
    · next h => simp [digitChar_isDigit n h]
    · next h =>
      have hd := ih (n / 10) (Nat.div_lt_self (by omega) (by omega))
      simp only [List.all_append, hd, Bool.true_and, List.all_cons, List.all_nil,
        Bool.and_true]
      exact digitChar_isDigit (n % 10) (Nat.mod_lt n (by omega))

theorem decValue_natToChars (n : Nat) : decValue (natToChars n) = n := by
  induction n using Nat.strong_induction_on with
  | _ n ih =>
    rw [natToChars_eq]
    split
    · next h =>
      show decValue ([] ++ [Char.ofNat (48 + n)]) = n
      rw [decValue_append_digit, digitChar_toNat n h]
      simp [decValue]
    · next h =>
      rw [decValue_append_digit, ih (n / 10) (Nat.div_lt_self (by omega) (by omega)),
        digitChar_toNat (n % 10) (Nat.mod_lt n (by omega))]
      omega

theorem pythonInt_of_digits (s : List Char) (h1 : s ≠ []) (h2 : s.all Char.isDigit = true) :
    pythonInt s = some ((decValue s : Int)) := by
  cases s with
  | nil => exact absurd rfl h1
  | cons c cs =>
    have hc : c.isDigit = true := by
      simp only [List.all_cons, Bool.and_eq_true] at h2
      exact h2.1
    have hcm : c ≠ '-' := by
      intro e
      rw [e] at hc
      exact absurd hc (by decide)
    unfold pythonInt
    split
    · next rest heq =>
      exfalso
      apply hcm
      simp only [List.cons.injEq] at heq
      exact heq.1
    · next => simp [h1, h2]

theorem pythonInt_natToChars (n : Nat) : pythonInt (natToChars n) = some (n : Int) := by
  rw [pythonInt_of_digits _ (natToChars_ne_nil n) (natToChars_all_digits n),
    decValue_natToChars]

theorem natToChars_not_mem_sep (n : Nat) : '|' ∉ natToChars n := by
  intro hm
  have := natToChars_all_digits n
  rw [List.all_eq_true] at this
  exact absurd (this _ hm) (by decide)

theorem intToChars_not_mem_sep (i : Int) : '|' ∉ intToChars i := by
  unfold intToChars
  split
  · intro hm
    rcases List.mem_cons.mp hm with h | h
    · exact absurd h (by decide)
    · exact natToChars_not_mem_sep _ h
  · exact natToChars_not_mem_sep _

theorem pythonInt_intToChars (i : Int) : pythonInt (intToChars i) = some i := by
  unfold intToChars
  split
  · next hneg =>
    unfold pythonInt
    split
    · next rest heq =>
      have hrest : natToChars i.natAbs = rest := by
        simp only [List.cons.injEq] at heq
        exact heq.2
      subst hrest
      rw [if_pos ⟨natToChars_ne_nil _, natToChars_all_digits _⟩, decValue_natToChars]
      congr 1
      omega
    · next h =>
      exact (h (natToChars i.natAbs) rfl).elim
  · next hpos =>
    rw [pythonInt_natToChars]
    congr 1
    omega

/-- The half-open window `[startOfDay t, startOfDay t + 1 day)` used by the
duplicate-scan query contains exactly the instants of `t`'s calendar day. -/
theorem mem_day_window_iff (t e : DateTime) :
    (dtLE (startOfDay t) e ∧ dtLT e (addDays (startOfDay t) 1)) ↔ e.day = t.day := by
  simp only [dtLE, dtLT, startOfDay, addDays]
  constructor
  · rintro ⟨h1 | ⟨h1, -⟩, h2 | ⟨h2, h3⟩⟩ <;> omega
  · intro h
    omega

theorem generate_qr_payload_ne_nil (mac : List Char → List Char → List Char)
    (qrSecret : List Char) (appSettings : Settings) (sid : Int) (nonce : List Char)
    (ia : Int) : generate_qr_payload mac qrSecret appSettings sid nonce ia ≠ [] := by
  unfold generate_qr_payload
  simp

/-- Splitting a minted payload recovers its five fields, provided neither the
nonce nor the digest contains the separator. -/
theorem splitOnChar_generate (mac : List Char → List Char → List Char)
    (qrSecret : List Char) (appSettings : Settings) (sid : Int) (nonce : List Char)
    (ia : Int) (hn : '|' ∉ nonce)
    (hs : '|' ∉ mac qrSecret (intToChars appSettings.qr_secret_version ++ '|' ::
      (intToChars sid ++ '|' :: (intToChars ia ++ '|' :: nonce)))) :
    splitOnChar '|' (generate_qr_payload mac qrSecret appSettings sid nonce ia) =
      [intToChars appSettings.qr_secret_version, intToChars sid, intToChars ia, nonce,
        mac qrSecret (intToChars appSettings.qr_secret_version ++ '|' ::
          (intToChars sid ++ '|' :: (intToChars ia ++ '|' :: nonce)))] := by
  have h1 : generate_qr_payload mac qrSecret appSettings sid nonce ia =
      intToChars appSettings.qr_secret_version ++ '|' :: (intToChars sid ++ '|' ::
        (intToChars ia ++ '|' :: (nonce ++ '|' ::
          mac qrSecret (intToChars appSettings.qr_secret_version ++ '|' ::
            (intToChars sid ++ '|' :: (intToChars ia ++ '|' :: nonce)))))) := by
    unfold generate_qr_payload
    simp [List.append_assoc]
  rw [h1,
    splitOnChar_append_sep _ _ _ (intToChars_not_mem_sep _),
    splitOnChar_append_sep _ _ _ (intToChars_not_mem_sep _),
    splitOnChar_append_sep _ _ _ (intToChars_not_mem_sep _),
    splitOnChar_append_sep _ _ _ hn,
    splitOnChar_of_not_mem _ _ hs]

/-- Verifying a freshly minted token under the same settings and key succeeds
with the minted id (shared workhorse for the codec theorems). -/
theorem verify_generate (mac : List Char → List Char → List Char)
    (qrSecret : List Char) (appSettings : Settings) (buffer sid : Int)
    (nonce : List Char) (ia now : Int)
    (hn : '|' ∉ nonce) (hmac : ∀ s d, '|' ∉ mac s d) :
    verify_qr_payload mac qrSecret appSettings buffer
      (generate_qr_payload mac qrSecret appSettings sid nonce ia) now =
      (some sid, "Valid") := by
  unfold verify_qr_payload
  rw [splitOnChar_generate mac qrSecret appSettings sid nonce ia hn (hmac _ _)]
  simp [pythonInt_intToChars]

/-- C5 (amended): for every student id, epoch, secret key, issue time, and
every nonce free of the `'|'` separator (real nonces are hex strings), with
the settings unchanged between mint and verify, verifying a token produced by
`generate_qr_payload` succeeds and returns exactly the minted student id.
(The HMAC parameter is any deterministic digest whose output, like a real hex
digest, never contains the separator.) -/
theorem qr_roundtrip (mac : List Char → List Char → List Char)
    (qrSecret : List Char) (appSettings : Settings) (buffer sid : Int)
    (nonce : List Char) (ia now : Int)
    (hn : '|' ∉ nonce) (hmac : ∀ s d, '|' ∉ mac s d) :
    verify_qr_payload mac qrSecret appSettings buffer
      (generate_qr_payload mac qrSecret appSettings sid nonce ia) now =
      (some sid, "Valid") :=
  verify_generate mac qrSecret appSettings buffer sid nonce ia now hn hmac

/-- C5 counterexample: with a nonce containing the separator `'|'`, the minted
token splits into six parts and verification rejects it as malformed instead
of returning the minted student id 42. -/
theorem qr_roundtrip_fails_on_separator_nonce :
    verify_qr_payload cMac cSecret cSettings 24 cTokenBad 100 =
        (none, "Invalid payload format") ∧
      (verify_qr_payload cMac cSecret cSettings 24 cTokenBad 100).1 ≠ some 42 := by
  decide

theorem qr_roundtrip_witness :
    ('|' ∉ cNonce) ∧
      verify_qr_payload cMac cSecret cSettings 24
        (generate_qr_payload cMac cSecret cSettings 42 cNonce 100) 1000 =
        (some 42, "Valid") :=
  ⟨by decide,
    qr_roundtrip cMac cSecret cSettings 24 42 cNonce 100 1000 (by decide)
      (fun s d => by show '|' ∉ (['s', 'g'] : List Char); decide)⟩

/-- C6: a token minted under one epoch (`qr_secret_version`) and verified when
the current epoch differs fails with the "QR code version mismatch" error, for
any verification key — even the mint key, under which the signature bytes are
correct — because the epoch comparison is decided before signature
verification. -/
theorem qr_epoch_mismatch (mac : List Char → List Char → List Char)
    (qrSecretMint qrSecretVerify : List Char) (mintSettings verifySettings : Settings)
    (buffer sid : Int) (nonce : List Char) (ia now : Int)
    (hepoch : mintSettings.qr_secret_version ≠ verifySettings.qr_secret_version)
    (hn : '|' ∉ nonce) (hmac : ∀ s d, '|' ∉ mac s d) :
    verify_qr_payload mac qrSecretVerify verifySettings buffer
      (generate_qr_payload mac qrSecretMint mintSettings sid nonce ia) now =
      (none, "QR code version mismatch") := by
  unfold verify_qr_payload
  rw [splitOnChar_generate mac qrSecretMint mintSettings sid nonce ia hn (hmac _ _)]
  simp [pythonInt_intToChars, hepoch]

theorem qr_epoch_mismatch_witness :
    (cSettings.qr_secret_version ≠ cSettings2.qr_secret_version) ∧ ('|' ∉ cNonce) ∧
      verify_qr_payload cMac cSecret cSettings2 24
        (generate_qr_payload cMac cSecret cSettings 42 cNonce 100) 1000 =
        (none, "QR code version mismatch") :=
  ⟨by decide, by decide,
    qr_epoch_mismatch cMac cSecret cSecret cSettings cSettings2 24 42 cNonce 100 1000
      (by decide) (by decide) (fun s d => by show '|' ∉ (['s', 'g'] : List Char); decide)⟩

/-- C9: the verification result of `verify_qr_payload` is identical for any
two verification times — the token-age computation of qr_utils.py 50–54 is
dead, its branch body being `pass`, so no token age is ever enforced; in
particular a passing token is accepted with its embedded id no matter how old
it is. -/
theorem verify_qr_payload_time_independent (mac : List Char → List Char → List Char)
    (qrSecret : List Char) (appSettings : Settings) (buffer : Int)
    (payload : List Char) (t1 t2 : Int) :
    verify_qr_payload mac qrSecret appSettings buffer payload t1 =
      verify_qr_payload mac qrSecret appSettings buffer payload t2 := rfl

/-- The duplicate-scan query succeeds exactly when the ledger holds an ALLOWED
record of this student and meal on the calendar day of the query's clock
read. -/
theorem findAllowedScan_isSome_iff (events : List ScanEvent) (sid : Int)
    (meal : String) (t : DateTime) :
    (findAllowedScan events sid meal t).isSome ↔ hasAllowedScanOn events sid meal t.day := by
  unfold findAllowedScan hasAllowedScanOn
  rw [List.find?_isSome]
  constructor
  · rintro ⟨e, he, hp⟩
    simp only [Bool.and_eq_true, beq_iff_eq, decide_eq_true_eq] at hp
    obtain ⟨⟨⟨⟨h1, h2⟩, h3⟩, h4⟩, h5⟩ := hp
    exact ⟨e, he, h1, h2, (mem_day_window_iff t e.scanned_at).mp ⟨h3, h4⟩, h5⟩
  · rintro ⟨e, he, h1, h2, h3, h4⟩
    refine ⟨e, he, ?_⟩
    simp only [Bool.and_eq_true, beq_iff_eq, decide_eq_true_eq]
    obtain ⟨hle, hlt⟩ := (mem_day_window_iff t e.scanned_at).mpr h3
    exact ⟨⟨⟨⟨h1, h2⟩, hle⟩, hlt⟩, h4⟩

theorem findAllowedScan_eq_none_iff (events : List ScanEvent) (sid : Int)
    (meal : String) (t : DateTime) :
    findAllowedScan events sid meal t = none ↔ ¬ hasAllowedScanOn events sid meal t.day := by
  rw [← findAllowedScan_isSome_iff, ← Option.not_isSome_iff_eq_none]

/-- The payment query succeeds exactly when some VERIFIED payment of this
student covers the day. -/
theorem payments_find_isSome_iff (ps : List Payment) (sid d : Int) :
    (ps.find? (isValidPayment sid d)).isSome ↔ paidOn ps sid d := by
  unfold paidOn
  rw [List.find?_isSome]
  constructor
  · rintro ⟨p, hp, h⟩
    simp only [isValidPayment, Bool.and_eq_true, beq_iff_eq, decide_eq_true_eq] at h
    exact ⟨p, hp, h.1.1.1, h.1.1.2, h.1.2, h.2⟩
  · rintro ⟨p, hp, h1, h2, h3, h4⟩
    refine ⟨p, hp, ?_⟩
    simp only [isValidPayment, Bool.and_eq_true, beq_iff_eq, decide_eq_true_eq]
    exact ⟨⟨⟨h1, h2⟩, h3⟩, h4⟩

theorem cuts_any_iff (cs : List MessCut) (sid d : Int) :
    cs.any (isActiveCut sid d) = true ↔
      ∃ c ∈ cs, c.student = sid ∧ c.from_date ≤ d ∧ d ≤ c.to_date := by
  rw [List.any_eq_true]
  simp only [isActiveCut, Bool.and_eq_true, beq_iff_eq, decide_eq_true_eq, and_assoc]

theorem closures_any_iff (cs : List MessClosure) (d : Int) :
    cs.any (isActiveClosure d) = true ↔ ∃ c ∈ cs, c.from_date ≤ d ∧ d ≤ c.to_date := by
  rw [List.any_eq_true]
  simp only [isActiveClosure, Bool.and_eq_true, decide_eq_true_eq]

/-- Driving lemma: when every check up to the duplicate-scan query passes and
that query finds nothing, the read phase ends pending the ALLOWED commit. -/
theorem scan_precheck_eligible (mac : List Char → List Char → List Char)
    (qrSecret : List Char) (appSettings : Settings) (buffer : Int) (db : DB)
    (req : Request) (unixNow : Int) (t0 t1 : DateTime) (qr : List Char)
    (sid : Int) (st : Student)
    (hqr : req.qr_data = some qr) (hqrne : qr ≠ [])
    (hmeal : pyUpper req.meal ∈ mealChoices)
    (hver : (verify_qr_payload mac qrSecret appSettings buffer qr unixNow).1 = some sid)
    (hsid : sid ≠ 0)
    (hfind : db.students.find? (fun s => s.id == sid) = some st)
    (hst : st.status = "APPROVED")
    (hpay : (db.payments.find? (isValidPayment st.id t0.day)).isSome = true)
    (hcut : db.mess_cuts.any (isActiveCut st.id t0.day) = false)
    (hclose : db.mess_closures.any (isActiveClosure t0.day) = false)
    (hdup : findAllowedScan db.scan_events st.id (pyUpper req.meal) t1 = none) :
    scan_precheck mac qrSecret appSettings buffer db req unixNow t0 t1 =
      .inr ⟨st, pyUpper req.meal, req.device_info, req.staff_token⟩ := by
  obtain ⟨pay, hpayeq⟩ := Option.isSome_iff_exists.mp hpay
  unfold scan_precheck
  rw [hqr]
  simp [hver, hfind, hpayeq, hdup, hcut, hclose, hqrne, hmeal, hsid, hst]

/-- Driving lemma: when every earlier check passes but the duplicate-scan
query finds an ALLOWED record, the call answers `BLOCKED_DUPLICATE` and the
database is returned exactly as it was. -/
theorem scan_precheck_duplicate (mac : List Char → List Char → List Char)
    (qrSecret : List Char) (appSettings : Settings) (buffer : Int) (db : DB)
    (req : Request) (unixNow : Int) (t0 t1 : DateTime) (qr : List Char)
    (sid : Int) (st : Student)
    (hqr : req.qr_data = some qr) (hqrne : qr ≠ [])
    (hmeal : pyUpper req.meal ∈ mealChoices)
    (hver : (verify_qr_payload mac qrSecret appSettings buffer qr unixNow).1 = some sid)
    (hsid : sid ≠ 0)
    (hfind : db.students.find? (fun s => s.id == sid) = some st)
    (hst : st.status = "APPROVED")
    (hpay : (db.payments.find? (isValidPayment st.id t0.day)).isSome = true)
    (hcut : db.mess_cuts.any (isActiveCut st.id t0.day) = false)
    (hclose : db.mess_closures.any (isActiveClosure t0.day) = false)
    (hdup : (findAllowedScan db.scan_events st.id (pyUpper req.meal) t1).isSome = true) :
    scan_precheck mac qrSecret appSettings buffer db req unixNow t0 t1 =
      .inl (.res "BLOCKED_DUPLICATE", db) := by
  obtain ⟨pay, hpayeq⟩ := Option.isSome_iff_exists.mp hpay
  obtain ⟨ev, hdupeq⟩ := Option.isSome_iff_exists.mp hdup
  unfold scan_precheck
  rw [hqr]
  simp [hver, hfind, hpayeq, hdupeq, hcut, hclose, hqrne, hmeal, hsid, hst]

/-- Inversion: a call that terminates in its read phase never answers
`ALLOWED`, and it either leaves the ledger untouched or appends exactly one
non-ALLOWED record. -/
theorem scan_precheck_inl_spec (mac : List Char → List Char → List Char)
    (qrSecret : List Char) (appSettings : Settings) (buffer : Int) (db : DB)
    (req : Request) (unixNow : Int) (t0 t1 : DateTime) (out : ScanResponse × DB)
    (h : scan_precheck mac qrSecret appSettings buffer db req unixNow t0 t1 = .inl out) :
    out.1 ≠ ScanResponse.res "ALLOWED" ∧
      (out.2.scan_events = db.scan_events ∨
        ∃ e : ScanEvent, e.result ≠ "ALLOWED" ∧ out.2.scan_events = db.scan_events ++ [e]) := by
  unfold scan_precheck at h
  iterate 10 (all_goals ((try dsimp only at h); (try split at h)))
  all_goals first
    | (rw [Sum.inl.injEq] at h; subst h;
       exact ⟨fun hcon => by simp at hcon, Or.inl rfl⟩)
    | (rw [Sum.inl.injEq] at h; subst h;
       exact ⟨fun hcon => by simp at hcon, Or.inr ⟨_, by simp, rfl⟩⟩)
    | simp at h

/-- Inversion: a call that reaches its commit phase passed every check — the
request was well-formed, the token verified to a nonzero id, the student
lookup succeeded with APPROVED status, a VERIFIED payment covers the first
read's day, no cut or closure covers it, and the duplicate query on the second
read's day found nothing. -/
theorem scan_precheck_inr_spec (mac : List Char → List Char → List Char)
    (qrSecret : List Char) (appSettings : Settings) (buffer : Int) (db : DB)
    (req : Request) (unixNow : Int) (t0 t1 : DateTime) (p : PendingAllow)
    (h : scan_precheck mac qrSecret appSettings buffer db req unixNow t0 t1 = .inr p) :
    ∃ qr sid,
      req.qr_data = some qr ∧ qr ≠ [] ∧ pyUpper req.meal ∈ mealChoices ∧
      (verify_qr_payload mac qrSecret appSettings buffer qr unixNow).1 = some sid ∧
      sid ≠ 0 ∧
      db.students.find? (fun s => s.id == sid) = some p.student ∧
      p.student.status = "APPROVED" ∧
      (db.payments.find? (isValidPayment p.student.id t0.day)).isSome = true ∧
      db.mess_cuts.any (isActiveCut p.student.id t0.day) = false ∧
      db.mess_closures.any (isActiveClosure t0.day) = false ∧
      findAllowedScan db.scan_events p.student.id (pyUpper req.meal) t1 = none ∧
      p = ⟨p.student, pyUpper req.meal, req.device_info, req.staff_token⟩ := by
  unfold scan_precheck at h
  cases hqrdata : req.qr_data with
  | none =>
    rw [hqrdata] at h
    simp at h
  | some qr_data =>
    rw [hqrdata] at h
    dsimp only at h
    by_cases hbad : qr_data = [] ∨ pyUpper req.meal ∉ mealChoices
    · rw [if_pos hbad] at h
      simp at h
    · rw [if_neg hbad] at h
      push_neg at hbad
      cases hver : (verify_qr_payload mac qrSecret appSettings buffer qr_data unixNow).1 with
      | none =>
        rw [hver] at h
        simp at h
      | some student_id =>
        rw [hver] at h
        dsimp only at h
        by_cases hsid : student_id = 0
        · rw [if_pos hsid] at h
          simp at h
        · rw [if_neg hsid] at h
          cases hfind : db.students.find? (fun s => s.id == student_id) with
          | none =>
            rw [hfind] at h
            simp at h
          | some student =>
            rw [hfind] at h
            dsimp only at h
            by_cases hstatus : student.status ≠ "APPROVED"
            · rw [if_pos hstatus] at h
              simp at h
            · rw [if_neg hstatus] at h
              cases hpay : db.payments.find? (isValidPayment student.id t0.day) with
              | none =>
                rw [hpay] at h
                simp at h
              | some pay =>
                rw [hpay] at h
                dsimp only at h
                by_cases hcc : (db.mess_cuts.any (isActiveCut student.id t0.day) ||
                    db.mess_closures.any (isActiveClosure t0.day)) = true
                · rw [if_pos hcc] at h
                  simp at h
                · rw [if_neg hcc] at h
                  cases hdup : findAllowedScan db.scan_events student.id (pyUpper req.meal) t1 with
                  | some ev =>
                    rw [hdup] at h
                    simp at h
                  | none =>
                    rw [hdup] at h
                    rw [Sum.inr.injEq] at h
                    subst h
                    rw [Bool.or_eq_true, not_or, Bool.not_eq_true, Bool.not_eq_true] at hcc
                    exact ⟨qr_data, student_id, rfl, hbad.1, hbad.2, hver, hsid, hfind,
                      not_ne_iff.mp hstatus, by rw [hpay]; rfl, hcc.1, hcc.2, hdup, rfl⟩

/-- An eligible call (all checks pass, no duplicate) answers `ALLOWED` and
appends exactly the one ALLOWED record, stamped with the third clock read. -/
theorem scanner_scan_of_eligible (mac : List Char → List Char → List Char)
    (qrSecret : List Char) (appSettings : Settings) (buffer : Int) (db : DB)
    (req : Request) (unixNow : Int) (clock : Nat → DateTime) (qr : List Char)
    (sid : Int) (st : Student)
    (hqr : req.qr_data = some qr) (hqrne : qr ≠ [])
    (hmeal : pyUpper req.meal ∈ mealChoices)
    (hver : (verify_qr_payload mac qrSecret appSettings buffer qr unixNow).1 = some sid)
    (hsid : sid ≠ 0)
    (hfind : db.students.find? (fun s => s.id == sid) = some st)
    (hst : st.status = "APPROVED")
    (hpay : (db.payments.find? (isValidPayment st.id (clock 0).day)).isSome = true)
    (hcut : db.mess_cuts.any (isActiveCut st.id (clock 0).day) = false)
    (hclose : db.mess_closures.any (isActiveClosure (clock 0).day) = false)
    (hdup : findAllowedScan db.scan_events st.id (pyUpper req.meal) (clock 1) = none) :
    scanner_scan mac qrSecret appSettings buffer db req unixNow clock =
      (.res "ALLOWED", { db with scan_events := db.scan_events ++
        [⟨st.id, pyUpper req.meal, clock 2, "ALLOWED", req.device_info, req.staff_token⟩] }) := by
  unfold scanner_scan
  rw [scan_precheck_eligible mac qrSecret appSettings buffer db req unixNow (clock 0) (clock 1)
    qr sid st hqr hqrne hmeal hver hsid hfind hst hpay hcut hclose hdup]
  rfl

/-- A call that passes every check but finds an existing ALLOWED record
answers `BLOCKED_DUPLICATE` and leaves the database exactly unchanged. -/
theorem scanner_scan_of_duplicate (mac : List Char → List Char → List Char)
    (qrSecret : List Char) (appSettings : Settings) (buffer : Int) (db : DB)
    (req : Request) (unixNow : Int) (clock : Nat → DateTime) (qr : List Char)
    (sid : Int) (st : Student)
    (hqr : req.qr_data = some qr) (hqrne : qr ≠ [])
    (hmeal : pyUpper req.meal ∈ mealChoices)
    (hver : (verify_qr_payload mac qrSecret appSettings buffer qr unixNow).1 = some sid)
    (hsid : sid ≠ 0)
    (hfind : db.students.find? (fun s => s.id == sid) = some st)
    (hst : st.status = "APPROVED")
    (hpay : (db.payments.find? (isValidPayment st.id (clock 0).day)).isSome = true)
    (hcut : db.mess_cuts.any (isActiveCut st.id (clock 0).day) = false)
    (hclose : db.mess_closures.any (isActiveClosure (clock 0).day) = false)
    (hdup : (findAllowedScan db.scan_events st.id (pyUpper req.meal) (clock 1)).isSome = true) :
    scanner_scan mac qrSecret appSettings buffer db req unixNow clock =
      (.res "BLOCKED_DUPLICATE", db) := by
  unfold scanner_scan
  rw [scan_precheck_duplicate mac qrSecret appSettings buffer db req unixNow (clock 0) (clock 1)
    qr sid st hqr hqrne hmeal hver hsid hfind hst hpay hcut hclose hdup]

/-- C1: fail-closed adjudication — whenever `scanner_scan` answers `ALLOWED`
(with both decision-time clock reads on the same calendar day), the token
verified to a nonzero student id, that student exists with status APPROVED, a
VERIFIED payment covers today, no mess cut or closure covers today, and no
ALLOWED scan record for (student, meal, today) already existed; equivalently,
whenever any of these checks fails, the answer is never `ALLOWED`. -/
theorem scanner_scan_allowed_requires_all_checks (mac : List Char → List Char → List Char)
    (qrSecret : List Char) (appSettings : Settings) (buffer : Int) (db : DB)
    (req : Request) (unixNow : Int) (clock : Nat → DateTime) (db' : DB)
    (h : scanner_scan mac qrSecret appSettings buffer db req unixNow clock =
      (ScanResponse.res "ALLOWED", db'))
    (hday : (clock 0).day = (clock 1).day) :
    ∃ qr sid st,
      req.qr_data = some qr ∧
      (verify_qr_payload mac qrSecret appSettings buffer qr unixNow).1 = some sid ∧
      sid ≠ 0 ∧
      st ∈ db.students ∧ st.id = sid ∧ st.status = "APPROVED" ∧
      paidOn db.payments st.id (clock 0).day ∧
      ¬ excludedOn db st.id (clock 0).day ∧
      ¬ hasAllowedScanOn db.scan_events st.id (pyUpper req.meal) (clock 0).day := by
  unfold scanner_scan at h
  split at h
  · next out hpre =>
    obtain ⟨hne, -⟩ := scan_precheck_inl_spec _ _ _ _ _ _ _ _ _ _ hpre
    exact absurd (congrArg Prod.fst h) hne
  · next p hpre =>
    obtain ⟨qr, sid, hqr, hqrne, hmeal, hver, hsid, hfind, hst, hpay, hcut, hclose, hdup, hp⟩ :=
      scan_precheck_inr_spec _ _ _ _ _ _ _ _ _ _ hpre
    refine ⟨qr, sid, p.student, hqr, hver, hsid, List.mem_of_find?_eq_some hfind, ?_, hst,
      (payments_find_isSome_iff _ _ _).mp hpay, ?_, ?_⟩
    · simpa using List.find?_some hfind
    · intro hex
      rcases hex with hc | hc
      · exact absurd ((cuts_any_iff _ _ _).mpr hc) (by simp [hcut])
      · exact absurd ((closures_any_iff _ _).mpr hc) (by simp [hclose])
    · rw [hday]
      exact (findAllowedScan_eq_none_iff _ _ _ _).mp hdup

theorem scanner_scan_allowed_requires_all_checks_witness :
    scanner_scan cMac cSecret cSettings 24 cDB cReq 1000 cClock =
        (ScanResponse.res "ALLOWED", cDBAfter) ∧
      (cClock 0).day = (cClock 1).day ∧
      (∃ qr sid st,
        cReq.qr_data = some qr ∧
        (verify_qr_payload cMac cSecret cSettings 24 qr 1000).1 = some sid ∧
        sid ≠ 0 ∧
        st ∈ cDB.students ∧ st.id = sid ∧ st.status = "APPROVED" ∧
        paidOn cDB.payments st.id (cClock 0).day ∧
        ¬ excludedOn cDB st.id (cClock 0).day ∧
        ¬ hasAllowedScanOn cDB.scan_events st.id (pyUpper cReq.meal) (cClock 0).day) :=
  ⟨by decide, rfl,
    scanner_scan_allowed_requires_all_checks cMac cSecret cSettings 24 cDB cReq 1000 cClock
      cDBAfter (by decide) rfl⟩

/-- C2: the Scan Ledger invariant (at most one ALLOWED record per (student,
meal, calendar day)) is preserved by every sequentially executed adjudication
whose duplicate-check clock read and write-time stamp fall on the same
calendar day: an ALLOWED record is appended only after the duplicate query on
that day found nothing, and no other branch appends an ALLOWED record. -/
theorem scanner_scan_preserves_allowed_unique (mac : List Char → List Char → List Char)
    (qrSecret : List Char) (appSettings : Settings) (buffer : Int) (db : DB)
    (req : Request) (unixNow : Int) (clock : Nat → DateTime)
    (hInv : AllowedUnique db.scan_events)
    (hday : (clock 1).day = (clock 2).day) :
    AllowedUnique
      (scanner_scan mac qrSecret appSettings buffer db req unixNow clock).2.scan_events := by
  unfold scanner_scan
  split
  · next out hpre =>
    obtain ⟨-, hev⟩ := scan_precheck_inl_spec _ _ _ _ _ _ _ _ _ _ hpre
    rcases hev with heq | ⟨e, hres, heq⟩
    · rw [heq]
      exact hInv
    · rw [heq]
      unfold AllowedUnique at hInv ⊢
      rw [List.pairwise_append]
      refine ⟨hInv, List.pairwise_singleton _ _, fun a ha b hb => ?_⟩
      rw [List.mem_singleton] at hb
      subst hb
      intro hkey
      exact hres hkey.2.1
  · next p hpre =>
    obtain ⟨qr, sid, hqr, hqrne, hmeal, hver, hsid, hfind, hst, hpay, hcut, hclose, hdup, hp⟩ :=
      scan_precheck_inr_spec _ _ _ _ _ _ _ _ _ _ hpre
    unfold scan_commit
    dsimp only
    unfold AllowedUnique at hInv ⊢
    rw [List.pairwise_append]
    refine ⟨hInv, List.pairwise_singleton _ _, fun a ha b hb => ?_⟩
    rw [List.mem_singleton] at hb
    subst hb
    intro hkey
    obtain ⟨hares, -, hstud, hmeal2, hday2⟩ := hkey
    have hpm : p.meal = pyUpper req.meal := by rw [hp]
    apply (findAllowedScan_eq_none_iff db.scan_events p.student.id
      (pyUpper req.meal) (clock 1)).mp hdup
    exact ⟨a, ha, hstud, hmeal2.trans hpm, hday2.trans hday.symm, hares⟩

theorem scanner_scan_preserves_allowed_unique_witness :
    AllowedUnique cDB.scan_events ∧ (cClock 1).day = (cClock 2).day ∧
      AllowedUnique
        (scanner_scan cMac cSecret cSettings 24 cDB cReq 1000 cClock).2.scan_events :=
  ⟨by decide, rfl,
    scanner_scan_preserves_allowed_unique cMac cSecret cSettings 24 cDB cReq 1000 cClock
      (by decide) rfl⟩

/-- C7: the duplicate branch is a pure read. Under the eligibility hypotheses
(valid request, verified nonzero id, APPROVED student, covering VERIFIED
payment, no cut or closure): if an ALLOWED record for (student, meal, the
duplicate-check day) exists, the call answers `BLOCKED_DUPLICATE` and returns
the database exactly unchanged; if none exists, the call answers `ALLOWED`
once, and an identical second call against the updated ledger on the same day
answers `BLOCKED_DUPLICATE`, again leaving the ledger exactly unchanged. -/
theorem duplicate_scan_pure_read (mac : List Char → List Char → List Char)
    (qrSecret : List Char) (appSettings : Settings) (buffer : Int) (db : DB)
    (req : Request) (unixNow : Int) (clock : Nat → DateTime) (qr : List Char)
    (sid : Int) (st : Student)
    (hqr : req.qr_data = some qr) (hqrne : qr ≠ [])
    (hmeal : pyUpper req.meal ∈ mealChoices)
    (hver : (verify_qr_payload mac qrSecret appSettings buffer qr unixNow).1 = some sid)
    (hsid : sid ≠ 0)
    (hfind : db.students.find? (fun s => s.id == sid) = some st)
    (hst : st.status = "APPROVED")
    (hpay : (db.payments.find? (isValidPayment st.id (clock 0).day)).isSome = true)
    (hcut : db.mess_cuts.any (isActiveCut st.id (clock 0).day) = false)
    (hclose : db.mess_closures.any (isActiveClosure (clock 0).day) = false) :
    (hasAllowedScanOn db.scan_events st.id (pyUpper req.meal) (clock 1).day →
      scanner_scan mac qrSecret appSettings buffer db req unixNow clock =
        (.res "BLOCKED_DUPLICATE", db)) ∧
    (¬ hasAllowedScanOn db.scan_events st.id (pyUpper req.meal) (clock 1).day →
      scanner_scan mac qrSecret appSettings buffer db req unixNow clock =
        (.res "ALLOWED", { db with scan_events := db.scan_events ++
          [⟨st.id, pyUpper req.meal, clock 2, "ALLOWED", req.device_info, req.staff_token⟩] }) ∧
      ∀ clock₂ : Nat → DateTime,
        (clock₂ 0).day = (clock 0).day → (clock₂ 1).day = (clock 2).day →
        scanner_scan mac qrSecret appSettings buffer
          { db with scan_events := db.scan_events ++
            [⟨st.id, pyUpper req.meal, clock 2, "ALLOWED", req.device_info, req.staff_token⟩] }
          req unixNow clock₂ =
          (.res "BLOCKED_DUPLICATE",
            { db with scan_events := db.scan_events ++
              [⟨st.id, pyUpper req.meal, clock 2, "ALLOWED", req.device_info,
                req.staff_token⟩] })) := by
  constructor
  · intro hhas
    exact scanner_scan_of_duplicate mac qrSecret appSettings buffer db req unixNow clock
      qr sid st hqr hqrne hmeal hver hsid hfind hst hpay hcut hclose
      ((findAllowedScan_isSome_iff _ _ _ _).mpr hhas)
  · intro hnot
    have hdup : findAllowedScan db.scan_events st.id (pyUpper req.meal) (clock 1) = none :=
      (findAllowedScan_eq_none_iff _ _ _ _).mpr hnot
    refine ⟨scanner_scan_of_eligible mac qrSecret appSettings buffer db req unixNow clock
      qr sid st hqr hqrne hmeal hver hsid hfind hst hpay hcut hclose hdup, ?_⟩
    intro clock₂ h0 h1
    refine scanner_scan_of_duplicate mac qrSecret appSettings buffer _ req unixNow clock₂
      qr sid st hqr hqrne hmeal hver hsid ?_ ?_ ?_ ?_ ?_ ?_
    · exact hfind
    · exact hst
    · rw [h0]
      exact hpay
    · rw [h0]
      exact hcut
    · rw [h0]
      exact hclose
    · apply (findAllowedScan_isSome_iff _ _ _ _).mpr
      exact ⟨⟨st.id, pyUpper req.meal, clock 2, "ALLOWED", req.device_info, req.staff_token⟩,
        List.mem_append_right _ (List.mem_singleton_self _), rfl, rfl, h1.symm, rfl⟩

theorem duplicate_scan_pure_read_witness :
    cReq.qr_data = some cToken ∧ cToken ≠ [] ∧ pyUpper cReq.meal ∈ mealChoices ∧
      (verify_qr_payload cMac cSecret cSettings 24 cToken 1000).1 = some 42 ∧
      (42 : Int) ≠ 0 ∧
      cDB.students.find? (fun s => s.id == (42 : Int)) = some cStudent ∧
      cStudent.status = "APPROVED" ∧
      (cDB.payments.find? (isValidPayment cStudent.id (cClock 0).day)).isSome = true ∧
      cDB.mess_cuts.any (isActiveCut cStudent.id (cClock 0).day) = false ∧
      cDB.mess_closures.any (isActiveClosure (cClock 0).day) = false ∧
      ((hasAllowedScanOn cDB.scan_events cStudent.id (pyUpper cReq.meal) (cClock 1).day →
        scanner_scan cMac cSecret cSettings 24 cDB cReq 1000 cClock =
          (.res "BLOCKED_DUPLICATE", cDB)) ∧
      (¬ hasAllowedScanOn cDB.scan_events cStudent.id (pyUpper cReq.meal) (cClock 1).day →
        scanner_scan cMac cSecret cSettings 24 cDB cReq 1000 cClock =
          (.res "ALLOWED", { cDB with scan_events := cDB.scan_events ++
            [⟨cStudent.id, pyUpper cReq.meal, cClock 2, "ALLOWED", cReq.device_info,
              cReq.staff_token⟩] }) ∧
        ∀ clock₂ : Nat → DateTime,
          (clock₂ 0).day = (cClock 0).day → (clock₂ 1).day = (cClock 2).day →
          scanner_scan cMac cSecret cSettings 24
            { cDB with scan_events := cDB.scan_events ++
              [⟨cStudent.id, pyUpper cReq.meal, cClock 2, "ALLOWED", cReq.device_info,
                cReq.staff_token⟩] }
            cReq 1000 clock₂ =
            (.res "BLOCKED_DUPLICATE",
              { cDB with scan_events := cDB.scan_events ++
                [⟨cStudent.id, pyUpper cReq.meal, cClock 2, "ALLOWED", cReq.device_info,
                  cReq.staff_token⟩] }))) :=
  ⟨rfl, by decide, by decide, by decide, by decide, by decide, rfl, by decide, by decide,
    by decide,
    duplicate_scan_pure_read cMac cSecret cSettings 24 cDB cReq 1000 cClock cToken 42 cStudent
      rfl (by decide) (by decide) (by decide) (by decide) (by decide) rfl (by decide)
      (by decide) (by decide)⟩

/-- C8 counterexample: with an ALLOWED LUNCH record of day 10 in the ledger
and a call whose first clock read (the `today` of the payment, cut and closure
checks) falls on day 10 but whose second clock read (the duplicate check's own
`timezone.now()`) falls on day 11, the call answers `ALLOWED` — yet the
duplicate query keyed to the first read's day would have found the prior
record. The calendar date is therefore not one value computed once at
pipeline entry. -/
theorem scanner_scan_midnight_uses_second_clock_read :
    (scanner_scan cMac cSecret cSettings 24 cDBPrior cReq 1000 cClockMidnight).1 =
        ScanResponse.res "ALLOWED" ∧
      (cClockMidnight 0).day ≠ (cClockMidnight 1).day ∧
      (findAllowedScan cDBPrior.scan_events 42 "LUNCH" (cClockMidnight 0)).isSome = true := by
  decide

/-- C8 (amended): the payment, mess-cut and closure checks share the single
date of the call's first clock read, but the duplicate-scan check performs a
second clock read (views.py 111) and keys its day window to that read; the
single-date property therefore holds exactly when both reads fall on the same
calendar day — in that case, under the eligibility hypotheses, the call
answers `BLOCKED_DUPLICATE` precisely when the entry-day ledger already holds
an ALLOWED record for (student, meal, entry day). -/
theorem same_day_reads_key_duplicate_to_entry_day (mac : List Char → List Char → List Char)
    (qrSecret : List Char) (appSettings : Settings) (buffer : Int) (db : DB)
    (req : Request) (unixNow : Int) (clock : Nat → DateTime) (qr : List Char)
    (sid : Int) (st : Student)
    (hqr : req.qr_data = some qr) (hqrne : qr ≠ [])
    (hmeal : pyUpper req.meal ∈ mealChoices)
    (hver : (verify_qr_payload mac qrSecret appSettings buffer qr unixNow).1 = some sid)
    (hsid : sid ≠ 0)
    (hfind : db.students.find? (fun s => s.id == sid) = some st)
    (hst : st.status = "APPROVED")
    (hpay : (db.payments.find? (isValidPayment st.id (clock 0).day)).isSome = true)
    (hcut : db.mess_cuts.any (isActiveCut st.id (clock 0).day) = false)
    (hclose : db.mess_closures.any (isActiveClosure (clock 0).day) = false)
    (hday : (clock 0).day = (clock 1).day) :
    (scanner_scan mac qrSecret appSettings buffer db req unixNow clock).1 =
        ScanResponse.res "BLOCKED_DUPLICATE" ↔
      hasAllowedScanOn db.scan_events st.id (pyUpper req.meal) (clock 0).day := by
  constructor
  · intro hres
    by_contra hnot
    have hnot1 : ¬ hasAllowedScanOn db.scan_events st.id (pyUpper req.meal) (clock 1).day :=
      hday ▸ hnot
    have := scanner_scan_of_eligible mac qrSecret appSettings buffer db req unixNow clock
      qr sid st hqr hqrne hmeal hver hsid hfind hst hpay hcut hclose
      ((findAllowedScan_eq_none_iff _ _ _ _).mpr hnot1)
    rw [this] at hres
    simp at hres
  · intro hhas
    have := scanner_scan_of_duplicate mac qrSecret appSettings buffer db req unixNow clock
      qr sid st hqr hqrne hmeal hver hsid hfind hst hpay hcut hclose
      ((findAllowedScan_isSome_iff _ _ _ _).mpr (hday ▸ hhas))
    rw [this]

theorem same_day_reads_key_duplicate_to_entry_day_witness :
    cReq.qr_data = some cToken ∧ cToken ≠ [] ∧ pyUpper cReq.meal ∈ mealChoices ∧
      (verify_qr_payload cMac cSecret cSettings 24 cToken 1000).1 = some 42 ∧
      (42 : Int) ≠ 0 ∧
      cDBToday.students.find? (fun s => s.id == (42 : Int)) = some cStudent ∧
      cStudent.status = "APPROVED" ∧
      (cDBToday.payments.find? (isValidPayment cStudent.id (cClock 0).day)).isSome = true ∧
      cDBToday.mess_cuts.any (isActiveCut cStudent.id (cClock 0).day) = false ∧
      cDBToday.mess_closures.any (isActiveClosure (cClock 0).day) = false ∧
      (cClock 0).day = (cClock 1).day ∧
      ((scanner_scan cMac cSecret cSettings 24 cDBToday cReq 1000 cClock).1 =
          ScanResponse.res "BLOCKED_DUPLICATE" ↔
        hasAllowedScanOn cDBToday.scan_events cStudent.id (pyUpper cReq.meal) (cClock 0).day) :=
  ⟨rfl, by decide, by decide, by decide, by decide, by decide, rfl, by decide, by decide,
    by decide, rfl,
    same_day_reads_key_duplicate_to_entry_day cMac cSecret cSettings 24 cDBToday cReq 1000
      cClock cToken 42 cStudent rfl (by decide) (by decide) (by decide) (by decide)
      (by decide) rfl (by decide) (by decide) (by decide) rfl⟩

/-- C3: the pipeline never compares the token's embedded nonce with the
student's live `qr_nonce`. A token minted with the stale nonce `n1`, presented
while the student's live nonce is `n2`, passes verification (signature and
epoch only) and proceeds through every later check — here all the way to
`ALLOWED` — instead of stopping with `BLOCKED_QR_INVALID` as the nonce-binding
rule requires. -/
theorem scanner_scan_ignores_stale_nonce :
    cStudentReissued.qr_nonce = ['n', '2'] ∧
      cTokenStale = generate_qr_payload cMac cSecret cSettings 42 ['n', '1'] 100 ∧
      (verify_qr_payload cMac cSecret cSettings 24 cTokenStale 1000).1 = some 42 ∧
      (scanner_scan cMac cSecret cSettings 24 cDBReissued cReqStale 1000 cClock).1 =
        ScanResponse.res "ALLOWED" := by
  decide

/-- C4: the duplicate check-then-write sequence is an unprotected check-then-
act race. In the interleaving where both calls' read phases (the duplicate
check included) run against the shared database before either write commits —
a schedule nothing in the code excludes, since the view takes no lock and
`scan_events` carries no uniqueness constraint — two adjudications of the same
eligible (student, meal, day) both answer `ALLOWED` and the final ledger holds
two ALLOWED records for that key, violating the at-most-one invariant. -/
theorem raceRun_double_allowed :
    raceRun cMac cSecret cSettings 24 cDB cReq cReq 1000 cClock cClock =
        some (ScanResponse.res "ALLOWED", ScanResponse.res "ALLOWED", cDBDouble) ∧
      ¬ AllowedUnique cDBDouble.scan_events := by
  decide

/-- Grounding of the race model: under the sequential schedule the same two
calls answer `ALLOWED` then `BLOCKED_DUPLICATE` and the invariant survives —
the double admission arises only from the interleaving. -/
theorem sequential_scans_no_double_admission :
    scanner_scan cMac cSecret cSettings 24 cDB cReq 1000 cClock =
        (ScanResponse.res "ALLOWED", cDBAfter) ∧
      scanner_scan cMac cSecret cSettings 24 cDBAfter cReq 1000 cClock =
        (ScanResponse.res "BLOCKED_DUPLICATE", cDBAfter) ∧
      AllowedUnique cDBAfter.scan_events := by
  decide

/-- C10: a well-formed, current-epoch, correctly signed token embedding
student id 0 verifies to `(some 0, "Valid")`, yet `scanner_scan`'s Python
falsy test `if not student_id` treats 0 like None: the call answers
`BLOCKED_QR_INVALID` and leaves the database untouched — the student lookup
and every later pipeline step are unreachable for id 0. -/
theorem scanner_scan_blocks_student_id_zero (mac : List Char → List Char → List Char)
    (qrSecret : List Char) (appSettings : Settings) (buffer : Int) (db : DB)
    (req : Request) (unixNow : Int) (clock : Nat → DateTime) (nonce : List Char) (ia : Int)
    (hn : '|' ∉ nonce) (hmac : ∀ s d, '|' ∉ mac s d)
    (hqr : req.qr_data = some (generate_qr_payload mac qrSecret appSettings 0 nonce ia))
    (hmeal : pyUpper req.meal ∈ mealChoices) :
    verify_qr_payload mac qrSecret appSettings buffer
        (generate_qr_payload mac qrSecret appSettings 0 nonce ia) unixNow =
        (some 0, "Valid") ∧
      scanner_scan mac qrSecret appSettings buffer db req unixNow clock =
        (ScanResponse.res "BLOCKED_QR_INVALID", db) := by
  have hv := verify_generate mac qrSecret appSettings buffer 0 nonce ia unixNow hn hmac
  refine ⟨hv, ?_⟩
  have hpre : scan_precheck mac qrSecret appSettings buffer db req unixNow
      (clock 0) (clock 1) = .inl (.res "BLOCKED_QR_INVALID", db) := by
    unfold scan_precheck
    rw [hqr]
    simp [hv, hmeal, generate_qr_payload_ne_nil]
  unfold scanner_scan
  rw [hpre]

theorem scanner_scan_blocks_student_id_zero_witness :
    ('|' ∉ cNonce) ∧ cReqZero.qr_data = some cTokenZero ∧
      pyUpper cReqZero.meal ∈ mealChoices ∧
      verify_qr_payload cMac cSecret cSettings 24 cTokenZero 1000 = (some 0, "Valid") ∧
      scanner_scan cMac cSecret cSettings 24 cDB cReqZero 1000 cClock =
        (ScanResponse.res "BLOCKED_QR_INVALID", cDB) :=
  ⟨by decide, rfl, by decide,
    scanner_scan_blocks_student_id_zero cMac cSecret cSettings 24 cDB cReqZero 1000 cClock
      cNonce 100 (by decide) (fun s d => by show '|' ∉ (['s', 'g'] : List Char); decide)
      rfl (by decide)⟩

end Sahara
